import Mathlib

/-!
Verification of the position-lifecycle state machine and risk-sizing engine of
the single-position Bitcoin futures trading bot (`autotrade.py`).

The embedding models, from the source:
* the SQLite trade/analysis ledger (`trades`, `ai_analysis` tables) as lists of
  records (`Ledger`), with the insert/update operations `save_trade`,
  `save_ai_analysis`, `update_trade_status`, `link_analysis`, and the query
  `get_latest_open_trade`;
* `handle_position_closure` with its direction-aware P/L formulas;
* the sizing arithmetic of the main loop (minimum-notional clamp, order
  quantity rounded up to 3 decimals, bracket prices rounded to 2 decimals);
* the oracle-response handling: Python `str.strip`, the code-fence stripping
  block, `json.loads` (a JSON grammar parser whose numbers are kept as exact
  decimal literals), and the extraction of the six decision fields;
* one iteration of the main trading loop (`tradeStep`) over an input record
  carrying the exchange-observed position, the ticker price, the raw oracle
  response, and the available balance; `runLoop` folds iterations from the
  empty ledger.

Machine floats are modelled as exact rationals; timestamps are modelled only
by insertion order (plus presence of an exit timestamp); network/O-S effects
(logging, sleeping, the exchange itself) appear only as the `Outcome` tag of
an iteration and the list of orders it submits.
-/

namespace AutoTrade

/-- Position direction, the `action` column (`'long'`/`'short'`). -/
inductive Side
  | long
  | short
deriving DecidableEq, Repr

/-- Trade status column: `'OPEN'` (the schema default) or `'CLOSED'`. -/
inductive Status
  | OPEN
  | CLOSED
deriving DecidableEq, Repr

/-- One row of the `trades` table. -/
structure Trade where
  id : Nat
  action : Side
  entry_price : ℚ
  amount : ℚ
  leverage : ℚ
  sl_price : ℚ
  tp_price : ℚ
  sl_percentage : ℚ
  tp_percentage : ℚ
  position_size_percentage : ℚ
  investment_amount : ℚ
  status : Status
  exit_price : Option ℚ
  exit_timestamp : Option Nat
  profit_loss : Option ℚ
  profit_loss_percentage : Option ℚ
deriving DecidableEq, Repr

/-- The data passed to `save_trade` (everything except the id, the status
default and the exit fields, which the insert fills in). -/
structure TradeData where
  action : Side
  entry_price : ℚ
  amount : ℚ
  leverage : ℚ
  sl_price : ℚ
  tp_price : ℚ
  sl_percentage : ℚ
  tp_percentage : ℚ
  position_size_percentage : ℚ
  investment_amount : ℚ
deriving DecidableEq, Repr

/-- An exact decimal literal as written in a JSON number:
`sign * mant * 10 ^ exp10`.  Kept unnormalised so that parsing stays in
integer arithmetic. -/
structure NumLit where
  neg : Bool
  mant : Nat
  exp10 : Int
deriving DecidableEq, Repr

/-- The value of a decimal literal as a rational. -/
def NumLit.toQ (n : NumLit) : ℚ :=
  (if n.neg then (-1 : ℚ) else 1) * (n.mant : ℚ) * (10 : ℚ) ^ n.exp10

/-- JSON values as produced by `json.loads` (numbers as exact decimals). -/
inductive Json
  | null
  | bool (b : Bool)
  | num (n : NumLit)
  | str (s : List Char)
  | arr (xs : List Json)
  | obj (kvs : List (List Char × Json))

/-- One row of the `ai_analysis` table. -/
structure Analysis where
  id : Nat
  current_price : ℚ
  direction : List Char
  recommended_position_size : ℚ
  recommended_leverage : ℚ
  stop_loss_percentage : ℚ
  take_profit_percentage : ℚ
  reasoning : Json
  trade_id : Option Nat

/-- The persistent database state: the two tables, in insertion order
(`id`s are assigned 1, 2, … and rows are never deleted). -/
structure Ledger where
  trades : List Trade
  analyses : List Analysis

def emptyLedger : Ledger := ⟨[], []⟩

/-- Model of `save_trade`: INSERT INTO trades with `status` defaulting to `'OPEN'` and
exit fields NULL; returns the new row id (`cursor.lastrowid`). -/
def save_trade (st : Ledger) (td : TradeData) : Ledger × Nat :=
  let tid := st.trades.length + 1
  ({ st with trades := st.trades ++ [{
      id := tid
      action := td.action
      entry_price := td.entry_price
      amount := td.amount
      leverage := td.leverage
      sl_price := td.sl_price
      tp_price := td.tp_price
      sl_percentage := td.sl_percentage
      tp_percentage := td.tp_percentage
      position_size_percentage := td.position_size_percentage
      investment_amount := td.investment_amount
      status := Status.OPEN
      exit_price := none
      exit_timestamp := none
      profit_loss := none
      profit_loss_percentage := none }] }, tid)

/-- The data passed to `save_ai_analysis`. -/
structure AnalysisData where
  current_price : ℚ
  direction : List Char
  recommended_position_size : ℚ
  recommended_leverage : ℚ
  stop_loss_percentage : ℚ
  take_profit_percentage : ℚ
  reasoning : Json

/-- Model of `save_ai_analysis`: INSERT INTO ai_analysis; returns the new row id. -/
def save_ai_analysis (st : Ledger) (ad : AnalysisData) (trade_id : Option Nat) :
    Ledger × Nat :=
  let aid := st.analyses.length + 1
  ({ st with analyses := st.analyses ++ [{
      id := aid
      current_price := ad.current_price
      direction := ad.direction
      recommended_position_size := ad.recommended_position_size
      recommended_leverage := ad.recommended_leverage
      stop_loss_percentage := ad.stop_loss_percentage
      take_profit_percentage := ad.take_profit_percentage
      reasoning := ad.reasoning
      trade_id := trade_id }] }, aid)

/-- Model of `update_trade_status`: dynamic UPDATE of the row with the given id;
only the provided optional fields are overwritten. -/
def update_trade_status (st : Ledger) (tid : Nat) (status : Status)
    (exit_price : Option ℚ) (exit_timestamp : Option Nat)
    (profit_loss : Option ℚ) (profit_loss_percentage : Option ℚ) : Ledger :=
  { st with trades := st.trades.map (fun t =>
      if t.id = tid then
        { t with
          status := status
          exit_price := match exit_price with
            | some v => some v
            | none => t.exit_price
          exit_timestamp := match exit_timestamp with
            | some v => some v
            | none => t.exit_timestamp
          profit_loss := match profit_loss with
            | some v => some v
            | none => t.profit_loss
          profit_loss_percentage := match profit_loss_percentage with
            | some v => some v
            | none => t.profit_loss_percentage }
      else t) }

/-- The statement `UPDATE ai_analysis SET trade_id = ? WHERE id = ?` (the linking step after
a successful order placement). -/
def link_analysis (st : Ledger) (aid tid : Nat) : Ledger :=
  { st with analyses := st.analyses.map (fun a =>
      if a.id = aid then { a with trade_id := some tid } else a) }

/-- Model of `get_latest_open_trade`: the most recent row with `status = 'OPEN'`
(timestamps increase with insertion order, so most recent = last inserted). -/
def get_latest_open_trade (st : Ledger) : Option Trade :=
  st.trades.reverse.find? (fun t => decide (t.status = Status.OPEN))

/-- Number of `'OPEN'` rows in the trades table. -/
def countOpen (st : Ledger) : Nat :=
  (st.trades.filter (fun t => decide (t.status = Status.OPEN))).length

/-- Model of `handle_position_closure`: resolves the trade id (falling back to the
latest open trade), refetches the latest open trade for its entry price and
direction, computes the direction-aware P/L from that entry price, the passed
`amount` and the passed current (exit) price, and closes the row.  The `side`
parameter is accepted but, as in the source, never read. -/
def handle_position_closure (st : Ledger) (current_price : ℚ) (side : Side)
    (amount : ℚ) (current_trade_id : Option Nat) : Ledger :=
  let tid : Option Nat :=
    match current_trade_id with
    | some i => some i
    | none => (get_latest_open_trade st).map (fun t => t.id)
  match tid with
  | none => st
  | some i =>
    match get_latest_open_trade st with
    | none => st
    | some latest =>
      let pl : ℚ :=
        match latest.action with
        | Side.long => (current_price - latest.entry_price) * amount
        | Side.short => (latest.entry_price - current_price) * amount
      let plPct : ℚ :=
        match latest.action with
        | Side.long => (current_price / latest.entry_price - 1) * 100
        | Side.short => (1 - current_price / latest.entry_price) * 100
      update_trade_status st i Status.CLOSED (some current_price) (some 0)
        (some pl) (some plPct)

/-- Investment sizing of the main loop: `available_capital *
recommended_position_size`, clamped up to the 100 USDT minimum order amount. -/
def clampInvestment (available_capital position_size_percentage : ℚ) : ℚ :=
  let investment := available_capital * position_size_percentage
  if investment < 100 then 100 else investment

/-- Order quantity: `math.ceil((investment_amount / current_price) * 1000) /
1000` — base-asset quantity rounded up to 3 decimal places. -/
def orderAmount (investment_amount current_price : ℚ) : ℚ :=
  ((Int.ceil (investment_amount / current_price * 1000) : ℤ) : ℚ) / 1000

/-- Round half to even on rationals (the tie-breaking rule of Python's
`round`). -/
def rhe (q : ℚ) : ℤ :=
  let f := Int.floor q
  let frac := q - (f : ℚ)
  if frac < 1/2 then f
  else if 1/2 < frac then f + 1
  else if f % 2 = 0 then f else f + 1

/-- Python `round(x, 2)`: round to 2 decimal places, half to even. -/
def round2 (q : ℚ) : ℚ := ((rhe (q * 100) : ℤ) : ℚ) / 100

/-! ### Oracle-response text processing (lines 793–808 of the source) -/

/-- The backtick character. -/
def btick : Char := Char.ofNat 96

/-- The three-backtick code-fence marker. -/
def fenceMarker : List Char := [btick, btick, btick]

/-- Whitespace stripped by Python `str.strip()` (ASCII subset). -/
def isPySpace (c : Char) : Bool :=
  c == ' ' || c == '\t' || c == '\n' || c == '\r' || c == '\x0b' || c == '\x0c'

/-- Python `str.lstrip()`. -/
def lstrip (l : List Char) : List Char := l.dropWhile isPySpace

/-- Python `str.rstrip()`. -/
def rstrip (l : List Char) : List Char := (l.reverse.dropWhile isPySpace).reverse

/-- Python `str.strip()`. -/
def pyStrip (l : List Char) : List Char := lstrip (rstrip l)

/-- Python `str.lower()` (ASCII). -/
def pyLower (l : List Char) : List Char := l.map Char.toLower

/-- Whether `pat` is a leading piece of `s` (Python `str.startswith`). -/
def hasPre : List Char → List Char → Bool
  | [], _ => true
  | _ :: _, [] => false
  | a :: as, b :: bs => a == b && hasPre as bs

/-- The text after the first newline, if any: `s.split("\n", 1)[1]`. -/
def afterFirstNewline : List Char → Option (List Char)
  | [] => none
  | c :: rest => if c == '\n' then some rest else afterFirstNewline rest

/-- The text before the last occurrence of the fence marker, if the marker
occurs at all: `s.rsplit("\x60\x60\x60", 1)[0]` guarded by the `in` test. -/
def rsplitBeforeFence : List Char → Option (List Char)
  | [] => none
  | c :: rest =>
    match rsplitBeforeFence rest with
    | some r => some (c :: r)
    | none => if hasPre fenceMarker (c :: rest) then some [] else none

/-- The code-fence cleanup block: if the (already stripped) content starts
with a fence, drop through the first newline, cut at the last fence marker
when one remains, and strip again. -/
def stripFences (content : List Char) : List Char :=
  if hasPre fenceMarker content then
    let c1 := match afterFirstNewline content with
      | some r => r
      | none => content
    let c2 := match rsplitBeforeFence c1 with
      | some b => b
      | none => c1
    pyStrip c2
  else content

/-! ### `json.loads` (JSON grammar over character lists) -/

def lbrace : Char := Char.ofNat 123

def rbrace : Char := Char.ofNat 125

/-- JSON structural whitespace. -/
def isJsonWs (c : Char) : Bool := c == ' ' || c == '\t' || c == '\n' || c == '\r'

def skipWs (s : List Char) : List Char := s.dropWhile isJsonWs

def hexVal (c : Char) : Option Nat :=
  if '0' ≤ c && c ≤ '9' then some (c.toNat - 48)
  else if 'a' ≤ c && c ≤ 'f' then some (c.toNat - 87)
  else if 'A' ≤ c && c ≤ 'F' then some (c.toNat - 55)
  else none

/-- One escape sequence after a backslash inside a JSON string. -/
def parseEscape : List Char → Option (Char × List Char)
  | [] => none
  | c :: rest =>
    if c == '"' then some ('"', rest)
    else if c == '\\' then some ('\\', rest)
    else if c == '/' then some ('/', rest)
    else if c == 'b' then some ('\x08', rest)
    else if c == 'f' then some ('\x0c', rest)
    else if c == 'n' then some ('\n', rest)
    else if c == 'r' then some ('\r', rest)
    else if c == 't' then some ('\t', rest)
    else if c == 'u' then
      match rest with
      | h1 :: h2 :: h3 :: h4 :: rest2 =>
        match hexVal h1, hexVal h2, hexVal h3, hexVal h4 with
        | some a, some b, some c2, some d =>
          some (Char.ofNat (((a * 16 + b) * 16 + c2) * 16 + d), rest2)
        | _, _, _, _ => none
      | _ => none
    else none

/-- Body of a JSON string after the opening quote, up to the closing quote. -/
def parseStrBody : Nat → List Char → Option (List Char × List Char)
  | 0, _ => none
  | _, [] => none
  | fuel+1, c :: rest =>
    if c == '"' then some ([], rest)
    else if c == '\\' then
      match parseEscape rest with
      | some (e, rest2) =>
        match parseStrBody fuel rest2 with
        | some (tail, rest3) => some (e :: tail, rest3)
        | none => none
      | none => none
    else if c.toNat < 32 then none
    else
      match parseStrBody fuel rest with
      | some (tail, rest2) => some (c :: tail, rest2)
      | none => none

def digitsToNat (ds : List Char) : Nat :=
  ds.foldl (fun a c => a * 10 + (c.toNat - 48)) 0

/-- Optional fraction part `.digits` of a JSON number. -/
def parseFrac (s : List Char) : Option (List Char × List Char) :=
  match s with
  | '.' :: r =>
    let ds := r.takeWhile Char.isDigit
    if ds.isEmpty then none else some (ds, r.dropWhile Char.isDigit)
  | _ => some ([], s)

/-- Optional exponent part `e[+-]digits` of a JSON number. -/
def parseExp (s : List Char) : Option (Int × List Char) :=
  match s with
  | c :: r =>
    if c == 'e' || c == 'E' then
      let (sgn, r2) : Int × List Char :=
        match r with
        | d :: r3 =>
          if d == '+' then (1, r3)
          else if d == '-' then (-1, r3)
          else (1, r)
        | [] => (1, r)
      let ds := r2.takeWhile Char.isDigit
      if ds.isEmpty then none
      else some (sgn * (digitsToNat ds : Int), r2.dropWhile Char.isDigit)
    else some (0, s)
  | [] => some (0, [])

/-- A JSON number (`-?int frac? exp?`, no leading zeros), as an exact
decimal literal. -/
def parseNum (s : List Char) : Option (NumLit × List Char) :=
  let (neg, s1) : Bool × List Char :=
    match s with
    | c :: rest => if c == '-' then (true, rest) else (false, s)
    | [] => (false, [])
  match s1 with
  | [] => none
  | c :: rest =>
    if c.isDigit then
      let (intDs, s2) : List Char × List Char :=
        if c == '0' then (['0'], rest)
        else (s1.takeWhile Char.isDigit, s1.dropWhile Char.isDigit)
      match parseFrac s2 with
      | none => none
      | some (fracDs, s3) =>
        match parseExp s3 with
        | none => none
        | some (e, s4) =>
          some ({ neg := neg
                  mant := digitsToNat (intDs ++ fracDs)
                  exp10 := e - (fracDs.length : Int) }, s4)
    else none

mutual

/-- One JSON value (with leading whitespace skipped). -/
def parseVal : Nat → List Char → Option (Json × List Char)
  | 0, _ => none
  | fuel+1, s =>
    match skipWs s with
    | [] => none
    | c :: rest =>
      if c == '"' then
        match parseStrBody (rest.length + 1) rest with
        | some (cs, r) => some (Json.str cs, r)
        | none => none
      else if c == lbrace then parseObjRest fuel rest
      else if c == '[' then parseArrRest fuel rest
      else if hasPre ('t' :: 'r' :: 'u' :: 'e' :: []) (c :: rest) then
        some (Json.bool true, rest.drop 3)
      else if hasPre ('f' :: 'a' :: 'l' :: 's' :: 'e' :: []) (c :: rest) then
        some (Json.bool false, rest.drop 4)
      else if hasPre ('n' :: 'u' :: 'l' :: 'l' :: []) (c :: rest) then
        some (Json.null, rest.drop 3)
      else
        match parseNum (c :: rest) with
        | some (q, r) => some (Json.num q, r)
        | none => none

/-- The inside of a JSON array, after the opening bracket. -/
def parseArrRest : Nat → List Char → Option (Json × List Char)
  | 0, _ => none
  | fuel+1, s =>
    match skipWs s with
    | ']' :: r => some (Json.arr [], r)
    | s2 =>
      match parseVal fuel s2 with
      | some (v, r) => parseArrTail fuel [v] r
      | none => none

/-- Elements of a JSON array after the first (accumulator reversed). -/
def parseArrTail : Nat → List Json → List Char → Option (Json × List Char)
  | 0, _, _ => none
  | fuel+1, acc, s =>
    match skipWs s with
    | ']' :: r => some (Json.arr acc.reverse, r)
    | ',' :: r =>
      match parseVal fuel r with
      | some (v, r2) => parseArrTail fuel (v :: acc) r2
      | none => none
    | _ => none

/-- The inside of a JSON object, after the opening brace. -/
def parseObjRest : Nat → List Char → Option (Json × List Char)
  | 0, _ => none
  | fuel+1, s =>
    match skipWs s with
    | [] => none
    | c :: r =>
      if c == rbrace then some (Json.obj [], r)
      else if c == '"' then
        match parseStrBody (r.length + 1) r with
        | some (k, r2) =>
          match skipWs r2 with
          | ':' :: r3 =>
            match parseVal fuel r3 with
            | some (v, r4) => parseObjTail fuel [(k, v)] r4
            | none => none
          | _ => none
        | none => none
      else none

/-- Members of a JSON object after the first (accumulator reversed). -/
def parseObjTail : Nat → List (List Char × Json) → List Char →
    Option (Json × List Char)
  | 0, _, _ => none
  | fuel+1, acc, s =>
    match skipWs s with
    | [] => none
    | c :: r =>
      if c == rbrace then some (Json.obj acc.reverse, r)
      else if c == ',' then
        match skipWs r with
        | '"' :: r2 =>
          match parseStrBody (r2.length + 1) r2 with
          | some (k, r3) =>
            match skipWs r3 with
            | ':' :: r4 =>
              match parseVal fuel r4 with
              | some (v, r5) => parseObjTail fuel ((k, v) :: acc) r5
              | none => none
            | _ => none
          | none => none
        | _ => none
      else none

end

/-- Model of `json.loads`: one JSON value, with nothing but whitespace after it. -/
def jsonLoads (s : List Char) : Option Json :=
  match parseVal (2 * s.length + 8) s with
  | some (v, rest) => if (skipWs rest).isEmpty then some v else none
  | none => none

/-- The whole response-to-JSON path of the loop: `.strip()`, the fence
cleanup block, then `json.loads`. -/
def parsePipeline (raw : List Char) : Option Json :=
  jsonLoads (stripFences (pyStrip raw))

/-! ### Decision extraction and one main-loop iteration -/

/-- The six fields of `trading_decision` read by the loop. -/
structure Decision where
  direction : List Char
  recommended_position_size : ℚ
  recommended_leverage : ℚ
  stop_loss_percentage : ℚ
  take_profit_percentage : ℚ
  reasoning : Json

/-- Python dict lookup on the parsed object (duplicate keys: last wins, as in
`json.loads`). -/
def lookupKey (kvs : List (List Char × Json)) (k : List Char) : Option Json :=
  (kvs.reverse.find? (fun p => decide (p.1 = k))).map (fun p => p.2)

def asNum : Json → Option ℚ
  | Json.num n => some n.toQ
  | _ => none

def asStr : Json → Option (List Char)
  | Json.str s => some s
  | _ => none

/-- The subscript accesses `trading_decision['direction']`, …: all six keys
must be present, the direction a string and the numeric fields numbers
(anything else raises and is caught by the generic handler). -/
def jsonToDecision : Json → Option Decision
  | Json.obj kvs =>
    match (lookupKey kvs ("direction".toList)).bind asStr,
        (lookupKey kvs ("recommended_position_size".toList)).bind asNum,
        (lookupKey kvs ("recommended_leverage".toList)).bind asNum,
        (lookupKey kvs ("stop_loss_percentage".toList)).bind asNum,
        (lookupKey kvs ("take_profit_percentage".toList)).bind asNum,
        lookupKey kvs ("reasoning".toList) with
    | some dir, some ps, some lev, some sl, some tp, some rz =>
      some { direction := dir
             recommended_position_size := ps
             recommended_leverage := lev
             stop_loss_percentage := sl
             take_profit_percentage := tp
             reasoning := rz }
    | _, _, _, _, _, _ => none
  | _ => none

inductive OrderKind
  | market
  | stopMarket
  | takeProfitMarket
deriving DecidableEq, Repr

inductive OrderSide
  | buy
  | sell
deriving DecidableEq, Repr

/-- One order submitted to the exchange during an iteration. -/
structure Order where
  kind : OrderKind
  side : OrderSide
  amount : ℚ
  stopPrice : Option ℚ
deriving DecidableEq, Repr

/-- How an iteration of the loop ended (all of these sleep and continue;
none of them terminates the process). -/
inductive Outcome
  | holding
  | adopted
  | parseError
  | fieldError
  | noPosition
  | opened (s : Side)
  | unknownAction
deriving DecidableEq, Repr

/-- The observable result of one loop iteration: the new database state, the
orders submitted to the exchange, and how the iteration ended. -/
structure StepResult where
  ledger : Ledger
  orders : List Order
  outcome : Outcome

/-- Steps 7–13 of the loop after a successful parse: record the analysis,
branch on the lowercased direction, size the position and place the entry and
bracket orders (lines 810–963 of the source). -/
def executeDecision (st : Ledger) (current_price available_capital : ℚ)
    (d : Decision) : StepResult :=
  let ad : AnalysisData :=
    { current_price := current_price
      direction := d.direction
      recommended_position_size := d.recommended_position_size
      recommended_leverage := d.recommended_leverage
      stop_loss_percentage := d.stop_loss_percentage
      take_profit_percentage := d.take_profit_percentage
      reasoning := d.reasoning }
  let st1 := (save_ai_analysis st ad none).1
  let aid := (save_ai_analysis st ad none).2
  let action := pyLower d.direction
  if action = "no_position".toList then
    ⟨st1, [], Outcome.noPosition⟩
  else
    let investment_amount :=
      clampInvestment available_capital d.recommended_position_size
    let amount := orderAmount investment_amount current_price
    let sl_percentage := d.stop_loss_percentage
    let tp_percentage := d.take_profit_percentage
    if action = "long".toList then
      let entry_price := current_price
      let sl_price := round2 (entry_price * (1 - sl_percentage))
      let tp_price := round2 (entry_price * (1 + tp_percentage))
      let orders : List Order :=
        [⟨OrderKind.market, OrderSide.buy, amount, none⟩,
         ⟨OrderKind.stopMarket, OrderSide.sell, amount, some sl_price⟩,
         ⟨OrderKind.takeProfitMarket, OrderSide.sell, amount, some tp_price⟩]
      let st2 := (save_trade st1
        { action := Side.long
          entry_price := entry_price
          amount := amount
          leverage := d.recommended_leverage
          sl_price := sl_price
          tp_price := tp_price
          sl_percentage := sl_percentage
          tp_percentage := tp_percentage
          position_size_percentage := d.recommended_position_size
          investment_amount := investment_amount }).1
      ⟨link_analysis st2 aid (st1.trades.length + 1), orders, Outcome.opened Side.long⟩
    else if action = "short".toList then
      let entry_price := current_price
      let sl_price := round2 (entry_price * (1 + sl_percentage))
      let tp_price := round2 (entry_price * (1 - tp_percentage))
      let orders : List Order :=
        [⟨OrderKind.market, OrderSide.sell, amount, none⟩,
         ⟨OrderKind.stopMarket, OrderSide.buy, amount, some sl_price⟩,
         ⟨OrderKind.takeProfitMarket, OrderSide.buy, amount, some tp_price⟩]
      let st2 := (save_trade st1
        { action := Side.short
          entry_price := entry_price
          amount := amount
          leverage := d.recommended_leverage
          sl_price := sl_price
          tp_price := tp_price
          sl_percentage := sl_percentage
          tp_percentage := tp_percentage
          position_size_percentage := d.recommended_position_size
          investment_amount := investment_amount }).1
      ⟨link_analysis st2 aid (st1.trades.length + 1), orders, Outcome.opened Side.short⟩
    else ⟨st1, [], Outcome.unknownAction⟩

/-- The per-iteration inputs read from the outside world: the ticker price,
the exchange-reported position (side and absolute amount, `none` when flat),
the raw oracle response text, and the free USDT balance. -/
structure IterInput where
  price : ℚ
  positionSide : Option (Side × ℚ)
  rawResponse : List Char
  availableCapital : ℚ

/-- The trade data synthesized for an exchange position with no ledger row
(`temp_trade_data`). -/
def adoptTradeData (side : Side) (current_price amount : ℚ) : TradeData :=
  { action := side
    entry_price := current_price
    amount := amount
    leverage := 1
    sl_price := 0
    tp_price := 0
    sl_percentage := 0
    tp_percentage := 0
    position_size_percentage := 0
    investment_amount := 0 }

/-- One iteration of the main trading loop (lines 628–976 of the source):
reconcile the exchange position against the ledger, then — when flat — parse
the oracle response and execute the decision. -/
def tradeStep (st : Ledger) (inp : IterInput) : StepResult :=
  let current_trade := get_latest_open_trade st
  match inp.positionSide with
  | some (side, amt) =>
    match current_trade with
    | some _ => ⟨st, [], Outcome.holding⟩
    | none =>
      ⟨(save_trade st (adoptTradeData side inp.price amt)).1, [], Outcome.adopted⟩
  | none =>
    let st1 :=
      match current_trade with
      | some t => handle_position_closure st inp.price t.action t.amount (some t.id)
      | none => st
    match parsePipeline inp.rawResponse with
    | none => ⟨st1, [], Outcome.parseError⟩
    | some j =>
      match jsonToDecision j with
      | none => ⟨st1, [], Outcome.fieldError⟩
      | some d => executeDecision st1 inp.price inp.availableCapital d

/-- A run of the main loop from the freshly created (empty) database. -/
def runLoop (inputs : List IterInput) : Ledger :=
  inputs.foldl (fun st inp => (tradeStep st inp).ledger) emptyLedger

/-! ### Performance metrics (`get_performance_metrics`, `get_trade_summary`) -/

/-- The bucket test `profit_loss > 0` (SQL: NULL compares to neither side). -/
def isWin (t : Trade) : Bool :=
  match t.profit_loss with
  | some p => decide (0 < p)
  | none => false

/-- The bucket test `profit_loss < 0`. -/
def isLoss (t : Trade) : Bool :=
  match t.profit_loss with
  | some p => decide (p < 0)
  | none => false

/-- The overall block of `get_performance_metrics` (counts and win rate). -/
structure Metrics where
  total_trades : Nat
  winning_trades : Nat
  losing_trades : Nat
  total_profit_loss : ℚ
  win_rate : ℚ

/-- Model of `get_performance_metrics`, overall query: closed trades only, strict
comparisons for the win/loss buckets, `win_rate = winning/total*100` guarded
by `total > 0`. -/
def get_performance_metrics (st : Ledger) : Metrics :=
  let closed := st.trades.filter (fun t => decide (t.status = Status.CLOSED))
  let total := closed.length
  let winning := (closed.filter isWin).length
  let losing := (closed.filter isLoss).length
  { total_trades := total
    winning_trades := winning
    losing_trades := losing
    total_profit_loss := (closed.map (fun t => t.profit_loss.getD 0)).sum
    win_rate := if 0 < total then ((winning : ℚ) / (total : ℚ)) * 100 else 0 }

/-- The counts of `get_trade_summary`: rows with a non-NULL exit timestamp
(the recency window of the query is not modelled — counting rules are
identical for every window). -/
def get_trade_summary (st : Ledger) : Metrics :=
  let rows := st.trades.filter (fun t => t.exit_timestamp.isSome)
  let total := rows.length
  let winning := (rows.filter isWin).length
  let losing := (rows.filter isLoss).length
  { total_trades := total
    winning_trades := winning
    losing_trades := losing
    total_profit_loss := (rows.map (fun t => t.profit_loss.getD 0)).sum
    win_rate := if 0 < total then ((winning : ℚ) / (total : ℚ)) * 100 else 0 }

/-! ### Helper lemmas -/

lemma eq_of_mem_of_length_le_one {α : Type _} {l : List α} {a b : α}
    (h : l.length ≤ 1) (ha : a ∈ l) (hb : b ∈ l) : a = b := by
  match l with
  | [] => exact absurd ha (List.not_mem_nil a)
  | [x] =>
    rw [List.mem_singleton] at ha hb
    rw [ha, hb]
  | x :: y :: rest =>
    simp only [List.length_cons] at h
    omega

lemma countOpen_eq_zero_of_no_open {st : Ledger}
    (h : get_latest_open_trade st = none) : countOpen st = 0 := by
  unfold get_latest_open_trade at h
  unfold countOpen
  rw [List.length_eq_zero, List.filter_eq_nil]
  intro t ht
  have := List.find?_eq_none.mp h t (List.mem_reverse.mpr ht)
  simpa using this

lemma get_latest_open_trade_mem {st : Ledger} {t : Trade}
    (h : get_latest_open_trade st = some t) :
    t ∈ st.trades ∧ t.status = Status.OPEN := by
  unfold get_latest_open_trade at h
  refine ⟨List.mem_reverse.mp (List.mem_of_find?_eq_some h), ?_⟩
  simpa using List.find?_some h

lemma save_ai_analysis_trades (st : Ledger) (ad : AnalysisData)
    (tid : Option Nat) : ((save_ai_analysis st ad tid).1).trades = st.trades := rfl

lemma link_analysis_trades (st : Ledger) (a b : Nat) :
    (link_analysis st a b).trades = st.trades := rfl

lemma countOpen_save_ai_analysis (st : Ledger) (ad : AnalysisData)
    (tid : Option Nat) : countOpen (save_ai_analysis st ad tid).1 = countOpen st := rfl

lemma countOpen_link_analysis (st : Ledger) (a b : Nat) :
    countOpen (link_analysis st a b) = countOpen st := rfl

lemma countOpen_save_trade (st : Ledger) (td : TradeData) :
    countOpen (save_trade st td).1 = countOpen st + 1 := by
  simp [countOpen, save_trade, List.filter_append]

lemma countOpen_update_closed {st : Ledger} {t : Trade}
    (hle : countOpen st ≤ 1) (hmem : t ∈ st.trades) (hopen : t.status = Status.OPEN)
    (ep : Option ℚ) (ets : Option Nat) (pl plp : Option ℚ) :
    countOpen (update_trade_status st t.id Status.CLOSED ep ets pl plp) = 0 := by
  have htf : t ∈ st.trades.filter (fun t => decide (t.status = Status.OPEN)) :=
    List.mem_filter.mpr ⟨hmem, by simp [hopen]⟩
  unfold countOpen update_trade_status
  rw [List.length_eq_zero, List.filter_eq_nil]
  intro x hx
  simp only [List.mem_map] at hx
  obtain ⟨x0, hx0, hx0eq⟩ := hx
  by_cases hid : x0.id = t.id
  · subst hx0eq
    simp [hid]
  · subst hx0eq
    simp only [hid, if_false, decide_eq_true_eq]
    intro hx0open
    have hx0f : x0 ∈ st.trades.filter (fun t => decide (t.status = Status.OPEN)) :=
      List.mem_filter.mpr ⟨hx0, by simp [hx0open]⟩
    exact hid (by rw [eq_of_mem_of_length_le_one hle hx0f htf])

lemma handle_position_closure_countOpen {st : Ledger} {t : Trade}
    (hle : countOpen st ≤ 1) (h : get_latest_open_trade st = some t)
    (price : ℚ) (side : Side) (amt : ℚ) :
    countOpen (handle_position_closure st price side amt (some t.id)) = 0 := by
  obtain ⟨hmem, hopen⟩ := get_latest_open_trade_mem h
  unfold handle_position_closure
  rw [h]
  exact countOpen_update_closed hle hmem hopen _ _ _ _

lemma handle_position_closure_analyses (st : Ledger) (price : ℚ) (side : Side)
    (amt : ℚ) (oid : Option Nat) :
    (handle_position_closure st price side amt oid).analyses = st.analyses := by
  unfold handle_position_closure
  cases oid <;> cases h : get_latest_open_trade st <;>
    simp [h, update_trade_status]

lemma handle_position_closure_trades_length (st : Ledger) (price : ℚ)
    (side : Side) (amt : ℚ) (oid : Option Nat) :
    (handle_position_closure st price side amt oid).trades.length =
      st.trades.length := by
  unfold handle_position_closure
  cases oid <;> cases h : get_latest_open_trade st <;>
    simp [h, update_trade_status]

lemma executeDecision_countOpen (st : Ledger) (price avail : ℚ) (d : Decision)
    (h : countOpen st = 0) :
    countOpen (executeDecision st price avail d).ledger ≤ 1 := by
  simp only [executeDecision]
  split_ifs with h1 h2 h3
  · simp only [countOpen_save_ai_analysis]
    omega
  · simp only [countOpen_link_analysis, countOpen_save_trade,
      countOpen_save_ai_analysis]
    omega
  · simp only [countOpen_link_analysis, countOpen_save_trade,
      countOpen_save_ai_analysis]
    omega
  · simp only [countOpen_save_ai_analysis]
    omega

lemma tradeStep_countOpen (st : Ledger) (inp : IterInput)
    (h : countOpen st ≤ 1) : countOpen (tradeStep st inp).ledger ≤ 1 := by
  unfold tradeStep
  cases hps : inp.positionSide with
  | some p =>
    obtain ⟨side, amt⟩ := p
    cases hct : get_latest_open_trade st with
    | some t =>
      simp only [hct]
      exact h
    | none =>
      simp only [hct, countOpen_save_trade, countOpen_eq_zero_of_no_open hct]
      omega
  | none =>
    cases hct : get_latest_open_trade st with
    | none =>
      have h0 : countOpen st = 0 := countOpen_eq_zero_of_no_open hct
      simp only [hct]
      cases hp : parsePipeline inp.rawResponse with
      | none =>
        simp only [hp]
        omega
      | some j =>
        simp only [hp]
        cases hd : jsonToDecision j with
        | none =>
          simp only [hd]
          omega
        | some d =>
          simp only [hd]
          exact executeDecision_countOpen st inp.price inp.availableCapital d h0
    | some t =>
      have h0 : countOpen (handle_position_closure st inp.price t.action t.amount
          (some t.id)) = 0 :=
        handle_position_closure_countOpen h hct inp.price t.action t.amount
      simp only [hct]
      cases hp : parsePipeline inp.rawResponse with
      | none =>
        simp only [hp]
        omega
      | some j =>
        simp only [hp]
        cases hd : jsonToDecision j with
        | none =>
          simp only [hd]
          omega
        | some d =>
          simp only [hd]
          exact executeDecision_countOpen _ inp.price inp.availableCapital d h0

lemma countOpen_foldl (inputs : List IterInput) (st : Ledger)
    (h : countOpen st ≤ 1) :
    countOpen (inputs.foldl (fun s i => (tradeStep s i).ledger) st) ≤ 1 := by
  induction inputs generalizing st with
  | nil => simpa using h
  | cons i is ih => exact ih _ (tradeStep_countOpen st i h)

/-- Claim C1: starting from the empty ledger, after any sequence of main-loop
iterations at most one row of the trades table has status `'OPEN'` — the loop
inserts a new `OPEN` trade only when the ledger reports no open trade (adopt
guard), or after the previously open trade has been transitioned to
`'CLOSED'` by the close-out branch. -/
theorem single_open_invariant (inputs : List IterInput) :
    countOpen (runLoop inputs) ≤ 1 :=
  countOpen_foldl inputs emptyLedger (by simp [countOpen, emptyLedger])

/-- Claim C9: when the exchange reports a position but the ledger has no open
trade, the iteration creates exactly one synthetic `OPEN` trade — direction
and amount from the exchange, entry price the current ticker price,
leverage 1, every risk field zero — and does nothing else. -/
theorem adopt_path_synthesizes_trade (st : Ledger) (side : Side)
    (amt price avail : ℚ) (raw : List Char)
    (h : get_latest_open_trade st = none) :
    tradeStep st ⟨price, some (side, amt), raw, avail⟩ =
      ⟨⟨st.trades ++ [{
          id := st.trades.length + 1
          action := side
          entry_price := price
          amount := amt
          leverage := 1
          sl_price := 0
          tp_price := 0
          sl_percentage := 0
          tp_percentage := 0
          position_size_percentage := 0
          investment_amount := 0
          status := Status.OPEN
          exit_price := none
          exit_timestamp := none
          profit_loss := none
          profit_loss_percentage := none }], st.analyses⟩,
        [], Outcome.adopted⟩ := by
  simp [tradeStep, h, save_trade, adoptTradeData]

/-- Witness for C9 at a concrete input: adopting a 2-BTC long at price 100
over the empty ledger. -/
theorem adopt_path_synthesizes_trade_witness :
    tradeStep emptyLedger ⟨100, some (Side.long, 2), [], 0⟩ =
      ⟨⟨[{ id := 1, action := Side.long, entry_price := 100, amount := 2,
           leverage := 1, sl_price := 0, tp_price := 0, sl_percentage := 0,
           tp_percentage := 0, position_size_percentage := 0,
           investment_amount := 0, status := Status.OPEN, exit_price := none,
           exit_timestamp := none, profit_loss := none,
           profit_loss_percentage := none }], []⟩, [], Outcome.adopted⟩ := by
  have h := adopt_path_synthesizes_trade emptyLedger Side.long 2 100 0 [] rfl
  simpa [emptyLedger] using h

/-- A freshly opened ledger row as created by the trade-open path (used to
state the closure theorem over an arbitrary single-trade ledger). -/
def mkOpenTrade (i : Nat) (a : Side) (entry amt : ℚ) : Trade :=
  { id := i
    action := a
    entry_price := entry
    amount := amt
    leverage := 1
    sl_price := 0
    tp_price := 0
    sl_percentage := 0
    tp_percentage := 0
    position_size_percentage := 0
    investment_amount := 0
    status := Status.OPEN
    exit_price := none
    exit_timestamp := none
    profit_loss := none
    profit_loss_percentage := none }

/-- Claim C2: closing a trade is direction-aware and uses the ledger's entry
price and amount with the latest observed price as exit: long pnl =
(exit − entry)·amount with pct = (exit/entry − 1)·100, short pnl =
(entry − exit)·amount with pct = (1 − exit/entry)·100; in particular long
100→110 on 1 unit gives (10, 10%) and short 100→90 on 1 unit gives (10, 10%);
and the flat branch of the loop invokes the closure with the ledger trade's
own amount and id and the current ticker price. -/
theorem pnl_closure_direction_aware (a : Side) (entry exitP amt : ℚ)
    (st : Ledger) (t : Trade) (price avail : ℚ)
    (hopen : get_latest_open_trade st = some t) :
    (handle_position_closure ⟨[mkOpenTrade 1 a entry amt], []⟩ exitP a amt
        (some 1)).trades =
      [{ mkOpenTrade 1 a entry amt with
          status := Status.CLOSED
          exit_price := some exitP
          exit_timestamp := some 0
          profit_loss := some (match a with
            | Side.long => (exitP - entry) * amt
            | Side.short => (entry - exitP) * amt)
          profit_loss_percentage := some (match a with
            | Side.long => (exitP / entry - 1) * 100
            | Side.short => (1 - exitP / entry) * 100) }]
    ∧ (handle_position_closure ⟨[mkOpenTrade 1 Side.long 100 1], []⟩ 110
          Side.long 1 (some 1)).trades.map
        (fun t => (t.profit_loss, t.profit_loss_percentage)) =
        [(some 10, some 10)]
    ∧ (handle_position_closure ⟨[mkOpenTrade 1 Side.short 100 1], []⟩ 90
          Side.short 1 (some 1)).trades.map
        (fun t => (t.profit_loss, t.profit_loss_percentage)) =
        [(some 10, some 10)]
    ∧ tradeStep st ⟨price, none, [], avail⟩ =
        ⟨handle_position_closure st price t.action t.amount (some t.id), [],
          Outcome.parseError⟩ := by
  have hsingle : ∀ (a : Side) (entry amt : ℚ),
      get_latest_open_trade ⟨[mkOpenTrade 1 a entry amt], []⟩ =
        some (mkOpenTrade 1 a entry amt) := by
    intro a entry amt
    simp [get_latest_open_trade, mkOpenTrade]
  refine ⟨?_, ?_, ?_, ?_⟩
  · rw [show (handle_position_closure ⟨[mkOpenTrade 1 a entry amt], []⟩ exitP a
        amt (some 1)) = update_trade_status ⟨[mkOpenTrade 1 a entry amt], []⟩ 1
        Status.CLOSED (some exitP) (some 0)
        (some (match a with
          | Side.long => (exitP - (mkOpenTrade 1 a entry amt).entry_price) * amt
          | Side.short => ((mkOpenTrade 1 a entry amt).entry_price - exitP) * amt))
        (some (match a with
          | Side.long => (exitP / (mkOpenTrade 1 a entry amt).entry_price - 1) * 100
          | Side.short => (1 - exitP / (mkOpenTrade 1 a entry amt).entry_price) * 100))
        from by unfold handle_position_closure; rw [hsingle]; cases a <;> rfl]
    cases a <;> simp [update_trade_status, mkOpenTrade]
  · have h := hsingle Side.long 100 1
    unfold handle_position_closure
    rw [h]
    norm_num [update_trade_status, mkOpenTrade]
  · have h := hsingle Side.short 100 1
    unfold handle_position_closure
    rw [h]
    norm_num [update_trade_status, mkOpenTrade]
  · unfold tradeStep
    rw [hopen]
    rfl

/-- Witness for C2 at a concrete input: a single open long at entry 100,
amount 1, closed at 110 by the flat branch. -/
theorem pnl_closure_direction_aware_witness :
    (handle_position_closure ⟨[mkOpenTrade 1 Side.long 100 1], []⟩ 110
        Side.long 1 (some 1)).trades.map
      (fun t => (t.profit_loss, t.profit_loss_percentage)) =
      [(some 10, some 10)] :=
  (pnl_closure_direction_aware Side.long 100 110 1
    ⟨[mkOpenTrade 1 Side.long 100 1], []⟩ (mkOpenTrade 1 Side.long 100 1)
    110 0 (by simp [get_latest_open_trade, mkOpenTrade])).2.1

/-- The trade row inserted by the long branch of the order-execution path. -/
def longTradeRow (st : Ledger) (price avail : ℚ) (d : Decision) : Trade :=
  { id := st.trades.length + 1
    action := Side.long
    entry_price := price
    amount := orderAmount (clampInvestment avail d.recommended_position_size) price
    leverage := d.recommended_leverage
    sl_price := round2 (price * (1 - d.stop_loss_percentage))
    tp_price := round2 (price * (1 + d.take_profit_percentage))
    sl_percentage := d.stop_loss_percentage
    tp_percentage := d.take_profit_percentage
    position_size_percentage := d.recommended_position_size
    investment_amount := clampInvestment avail d.recommended_position_size
    status := Status.OPEN
    exit_price := none
    exit_timestamp := none
    profit_loss := none
    profit_loss_percentage := none }

/-- The trade row inserted by the short branch of the order-execution path. -/
def shortTradeRow (st : Ledger) (price avail : ℚ) (d : Decision) : Trade :=
  { longTradeRow st price avail d with
    action := Side.short
    sl_price := round2 (price * (1 + d.stop_loss_percentage))
    tp_price := round2 (price * (1 - d.take_profit_percentage)) }

lemma executeDecision_long (st : Ledger) (price avail : ℚ) (d : Decision)
    (hd : pyLower d.direction = "long".toList) :
    (executeDecision st price avail d).orders =
      [⟨OrderKind.market, OrderSide.buy,
          orderAmount (clampInvestment avail d.recommended_position_size) price,
          none⟩,
        ⟨OrderKind.stopMarket, OrderSide.sell,
          orderAmount (clampInvestment avail d.recommended_position_size) price,
          some (round2 (price * (1 - d.stop_loss_percentage)))⟩,
        ⟨OrderKind.takeProfitMarket, OrderSide.sell,
          orderAmount (clampInvestment avail d.recommended_position_size) price,
          some (round2 (price * (1 + d.take_profit_percentage)))⟩]
    ∧ (executeDecision st price avail d).ledger.trades =
        st.trades ++ [longTradeRow st price avail d]
    ∧ (executeDecision st price avail d).outcome = Outcome.opened Side.long := by
  have c1 : (("long".toList : List Char) = "no_position".toList) = False :=
    eq_false (by decide)
  have c2 : (("long".toList : List Char) = "long".toList) = True := eq_true rfl
  simp only [executeDecision, hd, c1, c2, if_true, if_false]
  refine ⟨by trivial, ?_, by trivial⟩
  simp [save_trade, save_ai_analysis, link_analysis, longTradeRow]

lemma executeDecision_short (st : Ledger) (price avail : ℚ) (d : Decision)
    (hd : pyLower d.direction = "short".toList) :
    (executeDecision st price avail d).orders =
      [⟨OrderKind.market, OrderSide.sell,
          orderAmount (clampInvestment avail d.recommended_position_size) price,
          none⟩,
        ⟨OrderKind.stopMarket, OrderSide.buy,
          orderAmount (clampInvestment avail d.recommended_position_size) price,
          some (round2 (price * (1 + d.stop_loss_percentage)))⟩,
        ⟨OrderKind.takeProfitMarket, OrderSide.buy,
          orderAmount (clampInvestment avail d.recommended_position_size) price,
          some (round2 (price * (1 - d.take_profit_percentage)))⟩]
    ∧ (executeDecision st price avail d).ledger.trades =
        st.trades ++ [shortTradeRow st price avail d]
    ∧ (executeDecision st price avail d).outcome = Outcome.opened Side.short := by
  have c1 : (("short".toList : List Char) = "no_position".toList) = False :=
    eq_false (by decide)
  have c2 : (("short".toList : List Char) = "long".toList) = False :=
    eq_false (by decide)
  have c3 : (("short".toList : List Char) = "short".toList) = True := eq_true rfl
  simp only [executeDecision, hd, c1, c2, c3, if_true, if_false]
  refine ⟨by trivial, ?_, by trivial⟩
  simp [save_trade, save_ai_analysis, link_analysis, shortTradeRow, longTradeRow]

/-- Claim C3: the order quantity placed and recorded is
`ceil((investment / price) * 1000) / 1000`, base-asset quantity rounded up to
3 decimals and never below the raw quantity; 333 at price 100 stays 3.33 and
100.001 at price 3 becomes 33.334; all three submitted orders and the
recorded trade carry exactly this quantity. -/
theorem order_quantity_rounds_up (inv price : ℚ) (st : Ledger) (avail : ℚ)
    (d : Decision) (hp : 0 < price)
    (hd : pyLower d.direction = "long".toList) :
    orderAmount inv price = ((Int.ceil (inv / price * 1000) : ℤ) : ℚ) / 1000
    ∧ inv / price ≤ orderAmount inv price
    ∧ orderAmount 333 100 = 333 / 100
    ∧ orderAmount (100001 / 1000) 3 = 16667 / 500
    ∧ (executeDecision st price avail d).orders.map (fun o => o.amount) =
        [orderAmount (clampInvestment avail d.recommended_position_size) price,
         orderAmount (clampInvestment avail d.recommended_position_size) price,
         orderAmount (clampInvestment avail d.recommended_position_size) price]
    ∧ ∃ t, (executeDecision st price avail d).ledger.trades = st.trades ++ [t]
        ∧ t.amount =
            orderAmount (clampInvestment avail d.recommended_position_size) price := by
  obtain ⟨ho, ht, _⟩ := executeDecision_long st price avail d hd
  refine ⟨rfl, ?_, by norm_num [orderAmount], ?_, ?_, ?_⟩
  · unfold orderAmount
    have hceil : inv / price * 1000 ≤ ((Int.ceil (inv / price * 1000) : ℤ) : ℚ) :=
      Int.le_ceil _
    linarith
  · unfold orderAmount
    have h1 : Int.ceil ((100001 : ℚ) / 1000 / 3 * 1000) = 33334 := by
      rw [Int.ceil_eq_iff]
      norm_num
    rw [h1]
    norm_num
  · rw [ho]
    rfl
  · exact ⟨longTradeRow st price avail d, ht, rfl⟩

/-- Witness for C3 at a concrete input: investment 100.001 at price 3. -/
theorem order_quantity_rounds_up_witness :
    (100001 : ℚ) / 1000 / 3 ≤ orderAmount (100001 / 1000) 3
    ∧ orderAmount (100001 / 1000) 3 = 16667 / 500 := by
  have h := order_quantity_rounds_up (100001 / 1000) 3 emptyLedger 0
    ⟨"long".toList, 0, 0, 0, 0, Json.null⟩ (by norm_num) (by decide)
  exact ⟨h.2.1, h.2.2.2.1⟩

/-- Claim C4: the invested amount is `availableCapital * positionSizeFraction`
clamped up to the 100 USDT minimum notional (and only up — above 100 it is
unchanged) before the order quantity is computed from it; 1000 × 0.05 = 50 is
clamped to 100; the recorded trade stores the clamped investment and a
quantity derived from it. -/
theorem min_notional_clamp (avail f : ℚ) (st : Ledger) (price : ℚ)
    (d : Decision) (hd : pyLower d.direction = "long".toList) :
    (avail * f < 100 → clampInvestment avail f = 100)
    ∧ (100 ≤ avail * f → clampInvestment avail f = avail * f)
    ∧ clampInvestment 1000 (1 / 20) = 100
    ∧ ∃ t, (executeDecision st price avail d).ledger.trades = st.trades ++ [t]
        ∧ t.investment_amount =
            clampInvestment avail d.recommended_position_size
        ∧ t.amount =
            orderAmount (clampInvestment avail d.recommended_position_size) price := by
  obtain ⟨_, ht, _⟩ := executeDecision_long st price avail d hd
  refine ⟨?_, ?_, ?_, longTradeRow st price avail d, ht, rfl, rfl⟩
  · intro h
    simp [clampInvestment, if_pos h]
  · intro h
    simp [clampInvestment, if_neg (not_lt.mpr h)]
  · norm_num [clampInvestment]

/-- Witness for C4 at a concrete input: available capital 1000, fraction
0.05. -/
theorem min_notional_clamp_witness : clampInvestment 1000 (1 / 20) = 100 :=
  (min_notional_clamp 1000 (1 / 20) emptyLedger 0
    ⟨"long".toList, 0, 0, 0, 0, Json.null⟩ (by decide)).1 (by norm_num)

/-- Claim C5: a long entry gets stop `entry * (1 - slPct)` and target
`entry * (1 + tpPct)`, a short entry the mirrored prices, each rounded to two
decimals, stored on the trade row and used as the trigger prices of the two
bracket orders; the spec's example (entry 100, slPct 0.02, tpPct 0.04) gives
98/104 for the long and 102/96 for the short. -/
theorem bracket_prices (st : Ledger) (price avail : ℚ) (dL dS : Decision)
    (hL : pyLower dL.direction = "long".toList)
    (hS : pyLower dS.direction = "short".toList) :
    (∃ t, (executeDecision st price avail dL).ledger.trades = st.trades ++ [t]
      ∧ t.sl_price = round2 (price * (1 - dL.stop_loss_percentage))
      ∧ t.tp_price = round2 (price * (1 + dL.take_profit_percentage))
      ∧ (executeDecision st price avail dL).orders.map (fun o => o.stopPrice) =
          [none, some t.sl_price, some t.tp_price])
    ∧ (∃ t, (executeDecision st price avail dS).ledger.trades = st.trades ++ [t]
      ∧ t.sl_price = round2 (price * (1 + dS.stop_loss_percentage))
      ∧ t.tp_price = round2 (price * (1 - dS.take_profit_percentage))
      ∧ (executeDecision st price avail dS).orders.map (fun o => o.stopPrice) =
          [none, some t.sl_price, some t.tp_price])
    ∧ round2 (100 * (1 - 1 / 50)) = 98
    ∧ round2 (100 * (1 + 1 / 25)) = 104
    ∧ round2 (100 * (1 + 1 / 50)) = 102
    ∧ round2 (100 * (1 - 1 / 25)) = 96 := by
  obtain ⟨hoL, htL, _⟩ := executeDecision_long st price avail dL hL
  obtain ⟨hoS, htS, _⟩ := executeDecision_short st price avail dS hS
  refine ⟨⟨longTradeRow st price avail dL, htL, rfl, rfl, by rw [hoL]; rfl⟩,
    ⟨shortTradeRow st price avail dS, htS, rfl, rfl, by rw [hoS]; rfl⟩,
    ?_, ?_, ?_, ?_⟩
  all_goals norm_num [round2, rhe]

/-- Witness for C5 at a concrete input: both directions with entry 100,
slPct 0.02, tpPct 0.04 over the empty ledger. -/
theorem bracket_prices_witness :
    round2 (100 * (1 - 1 / 50)) = 98 ∧ round2 (100 * (1 + 1 / 25)) = 104
    ∧ round2 (100 * (1 + 1 / 50)) = 102
    ∧ round2 (100 * (1 - 1 / 25)) = 96 := by
  have h := bracket_prices emptyLedger 100 1000
    ⟨"long".toList, 0, 0, 1 / 50, 1 / 25, Json.null⟩
    ⟨"short".toList, 0, 0, 1 / 50, 1 / 25, Json.null⟩ (by decide) (by decide)
  exact ⟨h.2.2.1, h.2.2.2.1, h.2.2.2.2.1, h.2.2.2.2.2⟩

/-- A well-formed oracle response: all six decision fields, direction LONG,
fraction 0.1, leverage 2, stop 2%, target 4%. -/
def decisionPayload : List Char :=
  ("\x7b\"direction\": \"LONG\", \"recommended_position_size\": 0.1, \"recommended_leverage\": 2, \"stop_loss_percentage\": 0.02, \"take_profit_percentage\": 0.04, \"reasoning\": \"momentum\"\x7d").toList

/-- A flat-branch iteration whose balance is 0 — violating the
`availableCapital > 0` sizing precondition — with a valid LONG decision at
price 100. -/
def violatingInput : IterInput :=
  { price := 100
    positionSide := none
    rawResponse := decisionPayload
    availableCapital := 0 }

set_option maxRecDepth 400000

/-- Claim C6 counterexample: at `availableCapital = 0` (a violation of the
claimed `availableCapital > 0` precondition) the code does not fail and does
not abort: the iteration still submits the entry order and both bracket
orders, records an `OPEN` trade, and reports a successful long open — there
is no `InvalidRecommendation` path in the code. -/
theorem sizing_preconditions_counterexample :
    violatingInput.availableCapital = 0
    ∧ (tradeStep emptyLedger violatingInput).orders.length = 3
    ∧ (tradeStep emptyLedger violatingInput).ledger.trades.length = 1
    ∧ (tradeStep emptyLedger violatingInput).outcome = Outcome.opened Side.long := by
  exact ⟨rfl, rfl, rfl, rfl⟩

/-- Claim C6 as amended: the sizing preconditions are not validated anywhere;
when `availableCapital * positionSizeFraction ≤ 0` the investment is silently
clamped up to the 100 minimum notional and the entry and both bracket orders
are still placed (for a long decision, with quantity `orderAmount 100 price`
each); no failure outcome occurs. -/
theorem sizing_no_validation_clamps_and_trades (st : Ledger)
    (price avail : ℚ) (d : Decision)
    (hneg : avail * d.recommended_position_size ≤ 0)
    (hd : pyLower d.direction = "long".toList) :
    clampInvestment avail d.recommended_position_size = 100
    ∧ (executeDecision st price avail d).orders.map (fun o => o.amount) =
        [orderAmount 100 price, orderAmount 100 price, orderAmount 100 price]
    ∧ (executeDecision st price avail d).ledger.trades.length =
        st.trades.length + 1
    ∧ (executeDecision st price avail d).outcome = Outcome.opened Side.long := by
  have hc : clampInvestment avail d.recommended_position_size = 100 := by
    unfold clampInvestment
    rw [if_pos (lt_of_le_of_lt hneg (by norm_num))]
  obtain ⟨ho, ht, hoc⟩ := executeDecision_long st price avail d hd
  refine ⟨hc, ?_, ?_, hoc⟩
  · rw [ho, hc]
    rfl
  · rw [ht]
    simp

/-- Witness for the amended C6 at a concrete input: zero capital, fraction
0.1, price 100. -/
theorem sizing_no_validation_clamps_and_trades_witness :
    clampInvestment 0 (1 / 10) = 100
    ∧ (executeDecision emptyLedger 100 0
        ⟨"long".toList, 1 / 10, 2, 1 / 50, 1 / 25, Json.null⟩).orders.map
          (fun o => o.amount) =
        [orderAmount 100 100, orderAmount 100 100, orderAmount 100 100] := by
  have h := sizing_no_validation_clamps_and_trades emptyLedger 100 0
    ⟨"long".toList, 1 / 10, 2, 1 / 50, 1 / 25, Json.null⟩ (by norm_num) (by decide)
  exact ⟨h.1, h.2.1⟩

/-- Claim C7: when the oracle payload fails to parse as JSON, the iteration
persists no analysis row, inserts no trade, places no order, and ends in the
parse-error outcome (log raw response, back off 30 s, `continue`) rather than
crashing or trading. -/
theorem parse_failure_no_trade_no_analysis (st : Ledger) (price avail : ℚ)
    (raw : List Char) (h : parsePipeline raw = none) :
    (tradeStep st ⟨price, none, raw, avail⟩).ledger.analyses = st.analyses
    ∧ (tradeStep st ⟨price, none, raw, avail⟩).ledger.trades.length =
        st.trades.length
    ∧ (tradeStep st ⟨price, none, raw, avail⟩).orders = []
    ∧ (tradeStep st ⟨price, none, raw, avail⟩).outcome = Outcome.parseError := by
  unfold tradeStep
  cases hct : get_latest_open_trade st with
  | none => simp [hct, h]
  | some t =>
    have h1 := handle_position_closure_analyses st price t.action t.amount (some t.id)
    have h2 := handle_position_closure_trades_length st price t.action t.amount (some t.id)
    refine ⟨?_, ?_, ?_, ?_⟩ <;> simp [hct, h, h1, h2]

/-- Witness for C7 at a concrete input: a non-JSON oracle reply over a ledger
with one open trade. -/
theorem parse_failure_no_trade_no_analysis_witness :
    (tradeStep ⟨[mkOpenTrade 1 Side.long 100 1], []⟩
        ⟨100, none, ("not json").toList, 50⟩).ledger.analyses = []
    ∧ (tradeStep ⟨[mkOpenTrade 1 Side.long 100 1], []⟩
        ⟨100, none, ("not json").toList, 50⟩).orders = []
    ∧ (tradeStep ⟨[mkOpenTrade 1 Side.long 100 1], []⟩
        ⟨100, none, ("not json").toList, 50⟩).outcome = Outcome.parseError := by
  have h := parse_failure_no_trade_no_analysis
    ⟨[mkOpenTrade 1 Side.long 100 1], []⟩ 100 50 (("not json").toList) (by rfl)
  exact ⟨h.1, h.2.2.1, h.2.2.2⟩

/-- A payload wrapped in a decorative code fence: a fence line with a
language tag, the payload, and a closing fence. -/
def fenceWrap (p : List Char) : List Char :=
  btick :: btick :: btick :: 'j' :: 's' :: 'o' :: 'n' :: '\n' ::
    (p ++ '\n' :: btick :: btick :: btick :: [])

/-- The valid decision payload wrapped in extraneous plain text (not a code
fence). -/
def wrappedPayload : List Char := ("note: ").toList ++ decisionPayload

/-- Claim C8 counterexample: a valid decision payload wrapped in the
extraneous text `note: ` does not parse at all, while the unwrapped payload
parses — so general wrapping text around the payload is not tolerated (only
the code-fence shape is stripped). -/
theorem wrapping_text_counterexample :
    parsePipeline wrappedPayload = none
    ∧ (parsePipeline decisionPayload).isSome = true
    ∧ parsePipeline wrappedPayload ≠ parsePipeline decisionPayload := by
  refine ⟨rfl, rfl, ?_⟩
  intro hcontr
  have h2 : (parsePipeline decisionPayload).isSome = true := rfl
  rw [← hcontr] at h2
  have h1 : parsePipeline wrappedPayload = none := rfl
  rw [h1] at h2
  simp at h2

lemma rstrip_append_last (l : List Char) (c : Char) (h : isPySpace c = false) :
    rstrip (l ++ [c]) = l ++ [c] := by
  simp [rstrip, List.reverse_append, List.dropWhile_cons, h]

lemma pyStrip_fenceWrap (p : List Char) : pyStrip (fenceWrap p) = fenceWrap p := by
  have h1 : fenceWrap p =
      (btick :: btick :: btick :: 'j' :: 's' :: 'o' :: 'n' :: '\n' ::
        (p ++ ['\n', btick, btick])) ++ [btick] := by
    simp [fenceWrap]
  unfold pyStrip
  rw [h1, rstrip_append_last _ _ (by rfl), ← h1]
  unfold fenceWrap lstrip
  rw [List.dropWhile_cons]
  simp [show isPySpace btick = false from rfl]

lemma afterFirstNewline_fenceWrap (p : List Char) :
    afterFirstNewline (fenceWrap p) =
      some (p ++ '\n' :: btick :: btick :: btick :: []) := by
  have hb : (btick == '\n') = false := by decide
  have hj : ('j' == '\n') = false := by decide
  have hs : ('s' == '\n') = false := by decide
  have ho : ('o' == '\n') = false := by decide
  have hn : ('n' == '\n') = false := by decide
  simp [fenceWrap, afterFirstNewline, hb, hj, hs, ho, hn]

lemma rsplitBeforeFence_trailing (p : List Char) :
    rsplitBeforeFence (p ++ '\n' :: btick :: btick :: btick :: []) =
      some (p ++ ['\n']) := by
  induction p with
  | nil => rfl
  | cons c p' ih => simp [rsplitBeforeFence, ih]

lemma stripFences_fenceWrap (p : List Char) :
    stripFences (fenceWrap p) = pyStrip (p ++ ['\n']) := by
  have h1 : hasPre fenceMarker (fenceWrap p) = true := by
    simp [hasPre, fenceMarker, fenceWrap]
  have h2 := afterFirstNewline_fenceWrap p
  have h3 := rsplitBeforeFence_trailing p
  simp [stripFences, h1, h2, h3]

lemma pyStrip_append_newline (p : List Char) :
    pyStrip (p ++ ['\n']) = pyStrip p := by
  unfold pyStrip rstrip
  rw [List.reverse_append]
  simp [List.dropWhile_cons, show isPySpace '\n' = true from rfl]

/-- Claim C8 as amended: a response consisting of a stripped payload that
does not itself begin with a fence marker, wrapped in decorative code
fencing, parses to exactly the same result as the unwrapped payload; general
extraneous wrapping text is not tolerated (see the counterexample). -/
theorem fence_wrapped_parses_identically (p : List Char)
    (hstrip : pyStrip p = p) (hnf : hasPre fenceMarker p = false) :
    parsePipeline (fenceWrap p) = parsePipeline p := by
  have hsf : stripFences p = p := by simp [stripFences, hnf]
  unfold parsePipeline
  rw [pyStrip_fenceWrap, stripFences_fenceWrap, pyStrip_append_newline, hstrip,
    hsf]

/-- Witness for the amended C8 at a concrete input: the fence-wrapped
decision payload parses like the bare payload. -/
theorem fence_wrapped_parses_identically_witness :
    parsePipeline (fenceWrap decisionPayload) = parsePipeline decisionPayload :=
  fence_wrapped_parses_identically decisionPayload (by rfl) (by rfl)

/-- A closed break-even trade (realized P/L exactly 0). -/
def breakEvenTrade : Trade :=
  { mkOpenTrade 2 Side.long 100 1 with
    status := Status.CLOSED
    exit_price := some 100
    exit_timestamp := some 0
    profit_loss := some 0
    profit_loss_percentage := some 0 }

lemma win_loss_count_le (l : List Trade) :
    (l.filter isWin).length + (l.filter isLoss).length ≤ l.length := by
  induction l with
  | nil => simp
  | cons t l ih =>
    by_cases hw : isWin t = true
    · have hl : isLoss t = false := by
        unfold isWin at hw
        unfold isLoss
        cases hpl : t.profit_loss with
        | none => rfl
        | some p =>
          rw [hpl] at hw
          simp only [decide_eq_true_eq] at hw
          simp only [decide_eq_false_iff_not]
          exact not_lt.mpr (le_of_lt hw)
      simp only [List.filter_cons, hw, if_true, hl, Bool.false_eq_true,
        if_false, List.length_cons]
      omega
    · rw [List.filter_cons, if_neg (by simpa using hw)]
      by_cases hl : isLoss t = true
      · rw [List.filter_cons, if_pos (by simpa using hl)]
        simp only [List.length_cons]
        omega
      · rw [List.filter_cons, if_neg (by simpa using hl)]
        simp only [List.length_cons]
        omega

lemma isWin_breakEvenTrade : isWin breakEvenTrade = false := by decide

lemma isLoss_breakEvenTrade : isLoss breakEvenTrade = false := by decide

/-- Claim C10: in `get_performance_metrics` and `get_trade_summary` a closed
break-even trade (`profit_loss = 0`) counts toward `total_trades` but toward
neither `winning_trades` nor `losing_trades` (both buckets use strict
comparisons), hence `winning + losing ≤ total` always holds, an extra
break-even trade strictly lowers `win_rate = winning/total*100` whenever any
winning trade exists, and with no closed trades every count and the win rate
are 0. -/
theorem breakeven_trades_in_metrics (st : Ledger) :
    (get_performance_metrics st).winning_trades +
        (get_performance_metrics st).losing_trades ≤
      (get_performance_metrics st).total_trades
    ∧ (get_trade_summary st).winning_trades +
        (get_trade_summary st).losing_trades ≤
      (get_trade_summary st).total_trades
    ∧ (get_performance_metrics
        { st with trades := st.trades ++ [breakEvenTrade] }).total_trades =
      (get_performance_metrics st).total_trades + 1
    ∧ (get_performance_metrics
        { st with trades := st.trades ++ [breakEvenTrade] }).winning_trades =
      (get_performance_metrics st).winning_trades
    ∧ (get_performance_metrics
        { st with trades := st.trades ++ [breakEvenTrade] }).losing_trades =
      (get_performance_metrics st).losing_trades
    ∧ (get_trade_summary
        { st with trades := st.trades ++ [breakEvenTrade] }).total_trades =
      (get_trade_summary st).total_trades + 1
    ∧ (get_trade_summary
        { st with trades := st.trades ++ [breakEvenTrade] }).winning_trades =
      (get_trade_summary st).winning_trades
    ∧ (get_trade_summary
        { st with trades := st.trades ++ [breakEvenTrade] }).losing_trades =
      (get_trade_summary st).losing_trades
    ∧ (0 < (get_performance_metrics st).winning_trades →
        (get_performance_metrics
          { st with trades := st.trades ++ [breakEvenTrade] }).win_rate <
        (get_performance_metrics st).win_rate)
    ∧ get_performance_metrics emptyLedger = ⟨0, 0, 0, 0, 0⟩
    ∧ get_trade_summary emptyLedger = ⟨0, 0, 0, 0, 0⟩ := by
  have hbe : (decide (breakEvenTrade.status = Status.CLOSED)) = true := by decide
  have hbe2 : breakEvenTrade.exit_timestamp.isSome = true := by decide
  refine ⟨win_loss_count_le _, win_loss_count_le _, ?_, ?_, ?_, ?_, ?_, ?_,
    ?_, rfl, rfl⟩
  · simp [get_performance_metrics, List.filter_append, hbe]
  · simp [get_performance_metrics, List.filter_append, hbe,
      isWin_breakEvenTrade, isLoss_breakEvenTrade]
  · simp [get_performance_metrics, List.filter_append, hbe,
      isWin_breakEvenTrade, isLoss_breakEvenTrade]
  · simp [get_trade_summary, List.filter_append, hbe2]
  · simp [get_trade_summary, List.filter_append, hbe2,
      isWin_breakEvenTrade, isLoss_breakEvenTrade]
  · simp [get_trade_summary, List.filter_append, hbe2,
      isWin_breakEvenTrade, isLoss_breakEvenTrade]
  · intro hw
    set closed := st.trades.filter (fun t => decide (t.status = Status.CLOSED))
      with hclosed
    have hker : (st.trades ++ [breakEvenTrade]).filter
        (fun t => decide (t.status = Status.CLOSED)) = closed ++ [breakEvenTrade] := by
      simp [List.filter_append, hbe, hclosed]
    have hkw : (closed ++ [breakEvenTrade]).filter isWin = closed.filter isWin := by
      simp [List.filter_append, isWin_breakEvenTrade]
    have hwn : 0 < (closed.filter isWin).length := by
      simpa [get_performance_metrics, hclosed] using hw
    have htot : 0 < closed.length :=
      lt_of_lt_of_le hwn (List.length_filter_le _ _)
    simp only [get_performance_metrics, hker, hkw, ← hclosed,
      List.length_append, List.length_singleton]
    rw [if_pos (by omega), if_pos htot]
    have hq1 : (0 : ℚ) < ((closed.filter isWin).length : ℚ) := by
      exact_mod_cast hwn
    have hq2 : (0 : ℚ) < (closed.length : ℚ) := by exact_mod_cast htot
    have hq3 : (closed.length : ℚ) < ((closed.length + 1 : ℕ) : ℚ) := by
      push_cast
      linarith
    have hdiv := div_lt_div_of_pos_left hq1 hq2 hq3
    exact mul_lt_mul_of_pos_right hdiv (by norm_num)

/-- Witness for C10 at a concrete input: one winning closed trade, then a
break-even trade is appended — the win rate drops. -/
theorem breakeven_trades_in_metrics_witness :
    (get_performance_metrics
        { trades := [{ mkOpenTrade 1 Side.long 100 1 with
            status := Status.CLOSED, exit_price := some 110,
            exit_timestamp := some 0, profit_loss := some 10,
            profit_loss_percentage := some 10 }] ++ [breakEvenTrade],
          analyses := [] }).win_rate <
      (get_performance_metrics
        { trades := [{ mkOpenTrade 1 Side.long 100 1 with
            status := Status.CLOSED, exit_price := some 110,
            exit_timestamp := some 0, profit_loss := some 10,
            profit_loss_percentage := some 10 }],
          analyses := [] }).win_rate :=
  (breakeven_trades_in_metrics
      ⟨[{ mkOpenTrade 1 Side.long 100 1 with
          status := Status.CLOSED, exit_price := some 110,
          exit_timestamp := some 0, profit_loss := some 10,
          profit_loss_percentage := some 10 }], []⟩).2.2.2.2.2.2.2.2.1
    (by decide)

end AutoTrade
